import Mathlib

set_option autoImplicit false

namespace SnakeGui

/-- The keyboard codes that `src/main.rs` distinguishes in its game logic:
the four movement keys `W`/`S`/`A`/`D` (up/down/left/right) and `Comma`,
the sentinel the snake's direction is initialized to.  Every other key code
falls into the same catch-all match arms as `Comma` in both
`direction_check` and the movement match, and the snake's direction field
only ever holds one of these five values. -/
inductive KeyCode where
  | KeyW
  | KeyS
  | KeyA
  | KeyD
  | Comma
deriving DecidableEq, Repr, Fintype

/-- `struct Position { x: i32, y: i32 }` with mathematical integers for the
machine integers (wrap-around is modelled explicitly where it can occur). -/
structure Position where
  x : Int
  y : Int
deriving DecidableEq, Repr

instance : Inhabited Position := ⟨⟨0, 0⟩⟩

/-- `struct Snake { position: Vec<Position>, length: i32, direction: KeyCode }`. -/
structure Snake where
  position : List Position
  length : Int
  direction : KeyCode
deriving DecidableEq, Repr

/-- Rust's `v as usize` for an `i32` value `v`: sign-extend and reinterpret,
i.e. reduce modulo `2^64`. -/
def i32AsUsize (v : Int) : Nat := (v % 2 ^ 64).toNat

/-- Two's-complement wrap-around of an integer into the `i32` range,
the release-mode semantics of `i32` addition overflow. -/
def wrap32 (v : Int) : Int := (v + 2 ^ 31) % 2 ^ 32 - 2 ^ 31

/-- `fn direction_check(previous_direction: KeyCode, new_direction: KeyCode) -> bool`. -/
def direction_check (previous_direction new_direction : KeyCode) : Bool :=
  match previous_direction, new_direction with
  | .KeyW, .KeyS => false
  | .KeyS, .KeyW => false
  | .KeyA, .KeyD => false
  | .KeyD, .KeyA => false
  | _, _ => true

/-- Spec-side predicate, for comparison with `direction_check`: `r` is the
exact geometric opposite of `d` (Up↔Down alias W↔S, Left↔Right alias A↔D). -/
def isOppositeSpec (d r : KeyCode) : Bool :=
  match d, r with
  | .KeyW, .KeyS => true
  | .KeyS, .KeyW => true
  | .KeyA, .KeyD => true
  | .KeyD, .KeyA => true
  | _, _ => false

/-- The input-handling prefix of `snake_movement_system`: the four
`keyboard_input.just_pressed` blocks, in the source order W, S, A, D.  Each
flag says whether that key was just pressed this tick; each block checks
`direction_check(snake.direction, key)` against the direction field as it
stands at that point (which an earlier block of the same tick may already
have overwritten) and, when legal, assigns the key to the direction field. -/
def processInputs (dir0 : KeyCode) (w s a d : Bool) : KeyCode :=
  let dir1 := if w && direction_check dir0 .KeyW then .KeyW else dir0
  let dir2 := if s && direction_check dir1 .KeyS then .KeyS else dir1
  let dir3 := if a && direction_check dir2 .KeyA then .KeyA else dir2
  if d && direction_check dir3 .KeyD then .KeyD else dir3

/-- Spec reading of the same-tick input handling, for comparison with
`processInputs`: every request's legality is evaluated against the pre-tick
direction `dir0` (the same baseline for all of them), and the last legal
request in the processing order W, S, A, D wins. -/
def processInputsPreTick (dir0 : KeyCode) (w s a d : Bool) : KeyCode :=
  let dir1 := if w && direction_check dir0 .KeyW then .KeyW else dir0
  let dir2 := if s && direction_check dir0 .KeyS then .KeyS else dir1
  let dir3 := if a && direction_check dir0 .KeyA then .KeyA else dir2
  if d && direction_check dir0 .KeyD then .KeyD else dir3

/-- The movement half of `snake_movement_system`: read the head
`snake.position[0]`, offset it by the current direction (`W`: y+1, `S`: y−1,
`A`: x−1, `D`: x+1, anything else — the `Comma` sentinel — no offset),
`insert(0, new_head)`, then `pop()` the tail if the body is now longer than
`snake.length as usize`.  The source indexes `position[0]`, which requires a
non-empty body (the spec's invariant); `headI` supplies a default only to
make the function total, and every theorem below assumes a non-empty body. -/
def advance (sn : Snake) : Snake :=
  let head := sn.position.headI
  let new_head : Position :=
    match sn.direction with
    | .KeyW => ⟨head.x, head.y + 1⟩
    | .KeyS => ⟨head.x, head.y - 1⟩
    | .KeyA => ⟨head.x - 1, head.y⟩
    | .KeyD => ⟨head.x + 1, head.y⟩
    | _ => ⟨head.x, head.y⟩
  let body := new_head :: sn.position
  let body := if body.length > i32AsUsize sn.length then body.dropLast else body
  { sn with position := body }

/-- The coordinate range `initialize_food` draws from on each axis:
`rng.random_range(-half..half + 1)` with `half = field_size / 2`, i.e. the
inclusive interval `[-(fs/2), fs/2]`. -/
def inDrawRange (fs : Int) (p : Int × Int) : Prop :=
  -(fs / 2) ≤ p.1 ∧ p.1 ≤ fs / 2 ∧ -(fs / 2) ≤ p.2 ∧ p.2 ≤ fs / 2

instance (fs : Int) (p : Int × Int) : Decidable (inDrawRange fs p) := by
  unfold inDrawRange
  infer_instance

/-- The retry loop of `initialize_food`, with the random number generator made
explicit as the list of its successive draws (each draw one `(x, y)` pair):
accept the first draw with `random_x != 0 || random_y != 0`, reject and
redraw on the exact center; `none` when the supply of draws runs out with
every draw rejected. -/
def spawnFood : List (Int × Int) → Option (Int × Int)
  | [] => none
  | p :: rest => if p.1 ≠ 0 ∨ p.2 ≠ 0 then some p else spawnFood rest

/-- The render buffer, modelled as an index function `row ↦ col ↦ char` for
the `vec![vec![' '; size]; size]` of `render_system` (row index first, as in
`grid[y][x]`). -/
abbrev Grid := Nat → Nat → Char

/-- `grid[y][x] = c`. -/
def setCell (g : Grid) (y x : Nat) (c : Char) : Grid :=
  fun y' x' => if y' = y ∧ x' = x then c else g y' x'

/-- The projection `(v + half) as usize` of `render_system` applied to one
coordinate: an `i32` addition (with wrap-around on overflow) followed by the
cast to `usize`. -/
def projectCoord (fs v : Int) : Nat := i32AsUsize (wrap32 (v + fs / 2))

/-- The snake-marking loop of `render_system`: for each body cell in order,
project it and set `'~'` when both projected coordinates are below `size`;
otherwise leave the buffer unchanged. -/
def markSnake (fs : Int) (body : List Position) (g : Grid) : Grid :=
  body.foldl
    (fun g p =>
      let size := i32AsUsize fs
      let x := projectCoord fs p.x
      let y := projectCoord fs p.y
      if x < size ∧ y < size then setCell g y x '~' else g)
    g

/-- The food-marking step of `render_system`: same projection and bounds
check, writing `'*'` (after the snake, so food overwrites a snake glyph). -/
def markFood (fs : Int) (food : Position) (g : Grid) : Grid :=
  let size := i32AsUsize fs
  let x := projectCoord fs food.x
  let y := projectCoord fs food.y
  if x < size ∧ y < size then setCell g y x '*' else g

/-- The fully marked buffer: blanks, then the snake pass, then the food. -/
def renderGrid (body : List Position) (food : Position) (fs : Int) : Grid :=
  markFood fs food (markSnake fs body (fun _ _ => ' '))

/-- The serialization order of `render_system`: `grid.iter().rev()` emits the
buffer rows from the highest row index down to row 0, each row's characters
by ascending column index.  Line `i` (counting from the top) is buffer row
`size - 1 - i`. -/
def renderLines (body : List Position) (food : Position) (fs : Int) : List (List Char) :=
  let size := i32AsUsize fs
  (List.range size).map fun i =>
    (List.range size).map fun j => renderGrid body food fs (size - 1 - i) j

/-- The character stream of the string `render_system` builds: push every
character of every emitted row, then a newline after each row. -/
def renderChars (body : List Position) (food : Position) (fs : Int) : List Char :=
  (renderLines body food fs).foldl
    (fun acc row => (row.foldl (fun a c => a ++ [c]) acc) ++ ['\n']) []

/-- Direct description of one buffer cell, for stating how the serialized
output is addressed: `'*'` where the food projects, else `'~'` where some
body cell projects, else blank. -/
def glyphAt (body : List Position) (food : Position) (fs : Int) (col row : Nat) : Char :=
  if projectCoord fs food.x = col ∧ projectCoord fs food.y = row then '*'
  else if body.any (fun p => projectCoord fs p.x == col && projectCoord fs p.y == row) then '~'
  else ' '


lemma i32AsUsize_eq_toNat (v : Int) (h0 : 0 ≤ v) (h1 : v < 2 ^ 31) :
    i32AsUsize v = v.toNat := by
  unfold i32AsUsize
  rw [show ((2 : Int) ^ 64 = 18446744073709551616) from by norm_num]
  omega

/-- The body after `advance` is the conditionally truncated cons of some new
head onto the old body. -/
lemma advance_position_shape (sn : Snake) :
    ∃ nh, (advance sn).position =
      if sn.position.length + 1 > i32AsUsize sn.length
      then (nh :: sn.position).dropLast else nh :: sn.position :=
  ⟨_, rfl⟩

lemma dropLast_cons_tail {α : Type} (nh : α) (pos : List α) :
    ((nh :: pos).dropLast).tail = pos.dropLast := by
  cases pos <;> simp [List.dropLast]

/-- Claim C2: for every current direction `d` (the sentinel included) and
every requested direction `r` among the four movement directions,
`direction_check d r` is `false` exactly when `r` is the geometric opposite
of `d` (W↔S, A↔D); every other pair is legal, `r = d` included, and any
request is legal when the current direction is the sentinel. -/
theorem direction_check_false_iff_opposite :
    ∀ d r : KeyCode, r ≠ .Comma →
      (direction_check d r = false ↔ isOppositeSpec d r = true) := by
  decide

/-- Witness for `direction_check_false_iff_opposite` at `d = W`, `r = S`. -/
theorem direction_check_false_iff_opposite_witness :
    KeyCode.KeyS ≠ KeyCode.Comma ∧
      (direction_check .KeyW .KeyS = false ↔ isOppositeSpec .KeyW .KeyS = true) :=
  ⟨by decide, direction_check_false_iff_opposite .KeyW .KeyS (by decide)⟩

/-- Claim C10: `direction_check` is symmetric in its two arguments, over all
five key codes. -/
theorem direction_check_symm :
    ∀ d1 d2 : KeyCode, direction_check d1 d2 = direction_check d2 d1 := by
  decide

/-- Claim C3, counterexample: with pre-tick direction Left (`A`) and both
`W` and `S` pressed in the same tick, the code yields `W` — the `S` request
is checked against the direction already updated to `W` by the earlier block
of the same tick and rejected — while evaluating every request against the
pre-tick baseline, as the claim states, yields `S` (the last legal request).
So legality is not evaluated against the pre-tick direction. -/
theorem processInputs_pretick_counterexample :
    processInputs .KeyA true true false false = .KeyW ∧
    processInputsPreTick .KeyA true true false false = .KeyS ∧
    KeyCode.KeyW ≠ KeyCode.KeyS := by
  decide

/-- Claim C3, amended: same-tick inputs are processed in the fixed key order
W, S, A, D, and each one's legality is evaluated against the direction as
already updated by earlier inputs of the same tick.  Consequently, for
either opposite pair — `W`/`S` or `A`/`D` — whenever both members arrive in
one tick and both are legal against the pre-tick direction, the
later-processed member of the pair is rejected at its own check, whatever
other keys arrive in the same tick: pressing it changes nothing, and with no
later inputs the earlier member is the resulting direction, whereas
evaluating every request against the pre-tick baseline would let the later
member win. -/
theorem processInputs_running_direction :
    ∀ (d0 : KeyCode) (w s a d : Bool),
      (direction_check d0 .KeyW = true → direction_check d0 .KeyS = true →
        processInputs d0 true true a d = processInputs d0 true false a d ∧
        processInputs d0 true true false false = .KeyW ∧
        processInputsPreTick d0 true true false false = .KeyS) ∧
      (direction_check d0 .KeyA = true → direction_check d0 .KeyD = true →
        processInputs d0 w s true true = processInputs d0 w s true false ∧
        processInputs d0 w s true true = .KeyA ∧
        processInputsPreTick d0 false false true true = .KeyD) := by
  intro d0 w s a d
  cases d0 <;> cases w <;> cases s <;> cases a <;> cases d <;> decide

/-- Witness for `processInputs_running_direction` at the sentinel pre-tick
direction, against which all four movement keys are legal. -/
theorem processInputs_running_direction_witness :
    (direction_check .Comma .KeyW = true ∧ direction_check .Comma .KeyS = true ∧
      direction_check .Comma .KeyA = true ∧ direction_check .Comma .KeyD = true) ∧
    (processInputs .Comma true true false false
        = processInputs .Comma true false false false ∧
      processInputs .Comma true true false false = .KeyW ∧
      processInputsPreTick .Comma true true false false = .KeyS) ∧
    (processInputs .Comma false false true true
        = processInputs .Comma false false true false ∧
      processInputs .Comma false false true true = .KeyA ∧
      processInputsPreTick .Comma false false true true = .KeyD) :=
  ⟨⟨by decide, by decide, by decide, by decide⟩,
    (processInputs_running_direction .Comma false false false false).1
      (by decide) (by decide),
    (processInputs_running_direction .Comma false false false false).2
      (by decide) (by decide)⟩

/-- Claim C4: starting from `1 ≤ body length` and `body length ≤ target
length` (an `i32`, so below `2^31`), one `advance` keeps the body length in
`[1, target]`; at target the length is unchanged and the tail of the new
body is the old body minus its last cell (one added in front, one popped at
the back), and below target the body grows by exactly one with no pop. -/
theorem advance_length_invariant (sn : Snake)
    (h1 : 1 ≤ sn.position.length) (h2 : (sn.position.length : Int) ≤ sn.length)
    (h3 : sn.length < 2 ^ 31) :
    1 ≤ (advance sn).position.length ∧
    ((advance sn).position.length : Int) ≤ sn.length ∧
    ((sn.position.length : Int) = sn.length →
      (advance sn).position.length = sn.position.length ∧
      (advance sn).position.tail = sn.position.dropLast) ∧
    ((sn.position.length : Int) < sn.length →
      (advance sn).position.length = sn.position.length + 1 ∧
      (advance sn).position.tail = sn.position) := by
  obtain ⟨nh, hadv⟩ := advance_position_shape sn
  have hL : i32AsUsize sn.length = sn.length.toNat :=
    i32AsUsize_eq_toNat sn.length (by omega) h3
  rw [hadv, hL]
  split
  · rename_i hcond
    refine ⟨?_, ?_, ?_, ?_⟩
    · simp only [List.length_dropLast, List.length_cons]
      omega
    · simp only [List.length_dropLast, List.length_cons]
      omega
    · intro _
      exact ⟨by simp only [List.length_dropLast, List.length_cons]; omega,
        dropLast_cons_tail nh sn.position⟩
    · intro hlt
      exact absurd hcond (by omega)
  · rename_i hcond
    refine ⟨?_, ?_, ?_, ?_⟩
    · simp only [List.length_cons]
      omega
    · simp only [List.length_cons]
      omega
    · intro heq
      exact absurd heq (by omega)
    · intro _
      exact ⟨rfl, rfl⟩

/-- Witness for `advance_length_invariant` on a single-cell body below its
target length 2. -/
theorem advance_length_invariant_witness :
    (1 ≤ ([⟨0, 0⟩] : List Position).length ∧
      (([⟨0, 0⟩] : List Position).length : Int) ≤ 2 ∧ (2 : Int) < 2 ^ 31) ∧
    (1 ≤ (advance ⟨[⟨0, 0⟩], 2, .KeyW⟩).position.length ∧
      ((advance ⟨[⟨0, 0⟩], 2, .KeyW⟩).position.length : Int) ≤ 2 ∧
      ((([⟨0, 0⟩] : List Position).length : Int) = 2 →
        (advance ⟨[⟨0, 0⟩], 2, .KeyW⟩).position.length
          = ([⟨0, 0⟩] : List Position).length ∧
        (advance ⟨[⟨0, 0⟩], 2, .KeyW⟩).position.tail
          = ([⟨0, 0⟩] : List Position).dropLast) ∧
      ((([⟨0, 0⟩] : List Position).length : Int) < 2 →
        (advance ⟨[⟨0, 0⟩], 2, .KeyW⟩).position.length
          = ([⟨0, 0⟩] : List Position).length + 1 ∧
        (advance ⟨[⟨0, 0⟩], 2, .KeyW⟩).position.tail = [⟨0, 0⟩])) :=
  ⟨⟨by decide, by decide, by decide⟩,
    advance_length_invariant ⟨[⟨0, 0⟩], 2, .KeyW⟩ (by decide) (by decide) (by decide)⟩

/-- Claim C5: whenever the retry loop of `initialize_food` returns — every
draw being in the `[-(fs/2), fs/2]` range the generator is asked for — the
returned cell is in that range on both axes and is not the center `(0,0)`,
and it is the first non-center draw: every earlier draw was exactly the
center. -/
theorem spawnFood_inRange_nonCenter (fs : Int) (h0 : 0 < fs) :
    ∀ (draws : List (Int × Int)) (c : Int × Int),
      (∀ p ∈ draws, inDrawRange fs p) → spawnFood draws = some c →
      inDrawRange fs c ∧ c ≠ (0, 0) ∧
      ∃ n, draws.get? n = some c ∧ ∀ m, m < n → draws.get? m = some (0, 0) := by
  intro draws
  induction draws with
  | nil => intro c hr hs; simp [spawnFood] at hs
  | cons p rest ih =>
    intro c hr hs
    rw [spawnFood] at hs
    split at hs
    · rename_i hp
      injection hs with hs
      subst hs
      refine ⟨hr p (by simp), ?_, 0, by simp, by omega⟩
      rintro rfl
      simp at hp
    · rename_i hp
      push_neg at hp
      have hp0 : p = (0, 0) := Prod.ext hp.1 hp.2
      obtain ⟨hc1, hc2, n, hn, hm⟩ :=
        ih c (fun q hq => hr q (by simp [hq])) hs
      refine ⟨hc1, hc2, n + 1, by simpa using hn, ?_⟩
      intro m hm'
      cases m with
      | zero => simp [hp0]
      | succ k => simpa using hm k (by omega)

/-- Witness for `spawnFood_inRange_nonCenter`: field size 3, a first draw on
the center and a second on `(1, 0)`. -/
theorem spawnFood_inRange_nonCenter_witness :
    ((0 : Int) < 3 ∧ (∀ p ∈ [((0 : Int), (0 : Int)), (1, 0)], inDrawRange 3 p) ∧
      spawnFood [(0, 0), (1, 0)] = some (1, 0)) ∧
    (inDrawRange 3 ((1 : Int), (0 : Int)) ∧ ((1 : Int), (0 : Int)) ≠ (0, 0) ∧
      ∃ n, [((0 : Int), (0 : Int)), (1, 0)].get? n = some (1, 0) ∧
        ∀ m, m < n → [((0 : Int), (0 : Int)), (1, 0)].get? m = some (0, 0)) :=
  ⟨⟨by decide, by decide, by decide⟩,
    spawnFood_inRange_nonCenter 3 (by decide) [(0, 0), (1, 0)] (1, 0)
      (by decide) (by decide)⟩

/-- Claim C6, counterexample: for `field_size = 1` the drawn range is the
single cell `(0, 0)` — `half = 1 / 2 = 0` — so no non-center cell exists in
the range and the retry loop, which rejects exactly the center, can never
accept a draw.  The claim's `field_size ≥ 1` bound is wrong at 1. -/
theorem spawnFood_terminates_counterexample :
    ¬ ∃ p : Int × Int, inDrawRange 1 p ∧ p ≠ (0, 0) := by
  rintro ⟨p, hin, hne⟩
  unfold inDrawRange at hin
  obtain ⟨h1, h2, h3, h4⟩ := hin
  apply hne
  have h5 : p.1 = 0 := by omega
  have h6 : p.2 = 0 := by omega
  exact Prod.ext h5 h6

/-- Claim C6, amended: for every `field_size ≥ 2` a non-center cell exists
in the drawn range `[-(fs/2), fs/2]` on both axes, and the retry loop
terminates on any draw sequence that contains at least one non-center draw
(so a generator that eventually produces a non-center cell cannot loop
forever). -/
theorem spawnFood_terminates (fs : Int) (h2 : 2 ≤ fs) :
    (∃ p : Int × Int, inDrawRange fs p ∧ p ≠ (0, 0)) ∧
    ∀ draws : List (Int × Int), (∃ p ∈ draws, p ≠ (0, 0)) →
      ∃ c, spawnFood draws = some c := by
  constructor
  · refine ⟨(1, 0), ?_, by simp⟩
    unfold inDrawRange
    refine ⟨?_, ?_, ?_, ?_⟩ <;> simp only <;> omega
  · intro draws
    induction draws with
    | nil => intro hex; simp at hex
    | cons p rest ih =>
      intro hex
      rw [spawnFood]
      split
      · exact ⟨p, rfl⟩
      · rename_i hp
        push_neg at hp
        obtain ⟨q, hq, hqne⟩ := hex
        rcases List.mem_cons.mp hq with rfl | hq'
        · exact absurd (Prod.ext hp.1 hp.2) hqne
        · exact ih ⟨q, hq', hqne⟩

/-- Witness for `spawnFood_terminates` at field size 2. -/
theorem spawnFood_terminates_witness :
    (2 : Int) ≤ 2 ∧
    ((∃ p : Int × Int, inDrawRange 2 p ∧ p ≠ (0, 0)) ∧
      ∀ draws : List (Int × Int), (∃ p ∈ draws, p ≠ (0, 0)) →
        ∃ c, spawnFood draws = some c) :=
  ⟨by decide, spawnFood_terminates 2 (by decide)⟩

/-- One cell of the buffer after the snake-marking loop: `'~'` exactly where
some body cell projects (the loop only ever writes inside the bounds), the
underlying buffer elsewhere. -/
lemma markSnake_apply (fs : Int) (body : List Position) (g : Grid) (y x : Nat)
    (hx : x < i32AsUsize fs) (hy : y < i32AsUsize fs) :
    markSnake fs body g y x =
      if (body.any fun p => projectCoord fs p.x == x && projectCoord fs p.y == y)
      then '~' else g y x := by
  induction body generalizing g with
  | nil => simp [markSnake]
  | cons p rest ih =>
    have hstep : markSnake fs (p :: rest) g = markSnake fs rest
        (if projectCoord fs p.x < i32AsUsize fs ∧ projectCoord fs p.y < i32AsUsize fs
         then setCell g (projectCoord fs p.y) (projectCoord fs p.x) '~' else g) := rfl
    rw [hstep, ih, List.any_cons]
    by_cases hb : (rest.any fun q => projectCoord fs q.x == x && projectCoord fs q.y == y) = true
    · simp [hb]
    · simp only [Bool.not_eq_true] at hb
      rw [hb, Bool.or_false]
      by_cases hpred : projectCoord fs p.x = x ∧ projectCoord fs p.y = y
      · obtain ⟨hpx, hpy⟩ := hpred
        subst hpx
        subst hpy
        rw [if_pos (show projectCoord fs p.x < i32AsUsize fs ∧
          projectCoord fs p.y < i32AsUsize fs from ⟨hx, hy⟩)]
        simp [setCell]
      · have hpred' : (projectCoord fs p.x == x && projectCoord fs p.y == y) = false := by
          rcases eq_or_ne (projectCoord fs p.x) x with h1 | h1 <;>
            rcases eq_or_ne (projectCoord fs p.y) y with h2 | h2 <;>
              simp_all
        rw [hpred']
        simp only [Bool.false_eq_true, if_false]
        split
        · simp only [setCell]
          rw [if_neg (by rintro ⟨h1, h2⟩; exact hpred ⟨h2.symm, h1.symm⟩)]
        · rfl

/-- One cell of the fully marked buffer, inside the bounds: the food glyph
where the food projects, else the snake glyph where some body cell projects,
else blank — i.e. `glyphAt`. -/
lemma renderGrid_apply (body : List Position) (food : Position) (fs : Int) (y x : Nat)
    (hx : x < i32AsUsize fs) (hy : y < i32AsUsize fs) :
    renderGrid body food fs y x = glyphAt body food fs x y := by
  unfold renderGrid markFood glyphAt
  by_cases hf : projectCoord fs food.x = x ∧ projectCoord fs food.y = y
  · obtain ⟨h1, h2⟩ := hf
    subst h1
    subst h2
    rw [if_pos (show projectCoord fs food.x < i32AsUsize fs ∧
          projectCoord fs food.y < i32AsUsize fs from ⟨hx, hy⟩),
      if_pos (show projectCoord fs food.x = projectCoord fs food.x ∧
          projectCoord fs food.y = projectCoord fs food.y from ⟨rfl, rfl⟩)]
    simp [setCell]
  · rw [if_neg hf]
    split
    · simp only [setCell]
      rw [if_neg (by rintro ⟨h1, h2⟩; exact hf ⟨h2.symm, h1.symm⟩)]
      exact markSnake_apply fs body _ y x hx hy
    · exact markSnake_apply fs body _ y x hx hy

lemma renderLines_length (body : List Position) (food : Position) (fs : Int) :
    (renderLines body food fs).length = i32AsUsize fs := by
  simp [renderLines]

lemma renderLines_row_length (body : List Position) (food : Position) (fs : Int)
    (l : List Char) (hl : l ∈ renderLines body food fs) :
    l.length = i32AsUsize fs := by
  simp only [renderLines, List.mem_map] at hl
  obtain ⟨i, _, rfl⟩ := hl
  simp

lemma foldl_append_singleton (row : List Char) (acc : List Char) :
    row.foldl (fun a c => a ++ [c]) acc = acc ++ row := by
  induction row generalizing acc with
  | nil => simp
  | cons c cs ih => simp [ih]

lemma renderChars_eq_join (body : List Position) (food : Position) (fs : Int) :
    renderChars body food fs =
      List.join ((renderLines body food fs).map fun l => l ++ ['\n']) := by
  unfold renderChars
  generalize renderLines body food fs = rows
  suffices h : ∀ (rows : List (List Char)) (acc : List Char),
      rows.foldl (fun acc row => (row.foldl (fun a c => a ++ [c]) acc) ++ ['\n']) acc
        = acc ++ List.join (rows.map fun l => l ++ ['\n']) by
    simpa using h rows []
  intro rows
  induction rows with
  | nil => intro acc; simp
  | cons r rs ih =>
    intro acc
    simp only [List.foldl_cons]
    rw [ih, foldl_append_singleton]
    simp [List.append_assoc]

/-- Claim C7: for every snake body, food and positive field size (an `i32`),
the serialized output is exactly `field_size` newline-terminated lines of
exactly `field_size` characters each, and line `i` from the top at column
`j` holds the glyph of buffer row `size - 1 - i`, column `j` — rows from the
highest projected y down, columns by ascending projected x. -/
theorem render_shape (body : List Position) (food : Position) (fs : Int)
    (h0 : 0 < fs) (h31 : fs < 2 ^ 31) :
    (renderLines body food fs).length = fs.toNat ∧
    (∀ l ∈ renderLines body food fs, l.length = fs.toNat) ∧
    renderChars body food fs
      = List.join ((renderLines body food fs).map fun l => l ++ ['\n']) ∧
    ∀ i j, i < fs.toNat → j < fs.toNat →
      ∃ l, (renderLines body food fs).get? i = some l ∧
        l.get? j = some (glyphAt body food fs j (fs.toNat - 1 - i)) := by
  have hS : i32AsUsize fs = fs.toNat := i32AsUsize_eq_toNat fs (by omega) h31
  refine ⟨by rw [renderLines_length, hS],
    fun l hl => by rw [renderLines_row_length body food fs l hl, hS],
    renderChars_eq_join body food fs, ?_⟩
  intro i j hi hj
  rw [← hS] at hi hj ⊢
  have hrow : (renderLines body food fs).get? i
      = some ((List.range (i32AsUsize fs)).map
          fun j => renderGrid body food fs (i32AsUsize fs - 1 - i) j) := by
    unfold renderLines
    rw [List.get?_map, List.get?_range hi]
    rfl
  refine ⟨_, hrow, ?_⟩
  rw [List.get?_map, List.get?_range hj]
  simp only [Option.map_some']
  rw [renderGrid_apply body food fs (i32AsUsize fs - 1 - i) j hj (by omega)]

/-- Witness for `render_shape` at field size 3 with the snake at the origin
and the food at `(1, 1)`. -/
theorem render_shape_witness :
    ((0 : Int) < 3 ∧ (3 : Int) < 2 ^ 31) ∧
    ((renderLines [⟨0, 0⟩] ⟨1, 1⟩ 3).length = (3 : Int).toNat ∧
      (∀ l ∈ renderLines [⟨0, 0⟩] ⟨1, 1⟩ 3, l.length = (3 : Int).toNat) ∧
      renderChars [⟨0, 0⟩] ⟨1, 1⟩ 3
        = List.join ((renderLines [⟨0, 0⟩] ⟨1, 1⟩ 3).map fun l => l ++ ['\n']) ∧
      ∀ i j, i < (3 : Int).toNat → j < (3 : Int).toNat →
        ∃ l, (renderLines [⟨0, 0⟩] ⟨1, 1⟩ 3).get? i = some l ∧
          l.get? j = some (glyphAt [⟨0, 0⟩] ⟨1, 1⟩ 3 j ((3 : Int).toNat - 1 - i))) :=
  ⟨⟨by decide, by decide⟩, render_shape [⟨0, 0⟩] ⟨1, 1⟩ 3 (by decide) (by decide)⟩

/-- The snake-marking loop ignores body cells whose projection lies outside
the buffer, so filtering them away leaves the marked buffer unchanged. -/
lemma markSnake_filter (fs : Int) (body : List Position) (g : Grid) :
    markSnake fs (body.filter fun p =>
        decide (projectCoord fs p.x < i32AsUsize fs ∧ projectCoord fs p.y < i32AsUsize fs)) g
      = markSnake fs body g := by
  induction body generalizing g with
  | nil => rfl
  | cons p rest ih =>
    by_cases hp : projectCoord fs p.x < i32AsUsize fs ∧ projectCoord fs p.y < i32AsUsize fs
    · rw [List.filter_cons_of_pos (by simpa using hp)]
      exact ih _
    · rw [List.filter_cons_of_neg (by simpa using hp)]
      have hstep : markSnake fs (p :: rest) g = markSnake fs rest
          (if projectCoord fs p.x < i32AsUsize fs ∧ projectCoord fs p.y < i32AsUsize fs
           then setCell g (projectCoord fs p.y) (projectCoord fs p.x) '~' else g) := rfl
      rw [hstep, if_neg hp]
      exact ih g

lemma renderGrid_filter (body : List Position) (food : Position) (fs : Int) :
    renderGrid (body.filter fun p =>
        decide (projectCoord fs p.x < i32AsUsize fs ∧ projectCoord fs p.y < i32AsUsize fs))
      food fs = renderGrid body food fs := by
  unfold renderGrid
  rw [markSnake_filter]

/-- Claim C8: rendering is total for arbitrary `i32` coordinates — each cell
is drawn only when both projected coordinates land in `[0, size)`, and every
cell whose projection falls outside (negative coordinates included, which
the `as usize` cast sends far above `size`) is silently skipped: removing
all such cells from the body does not change the rendered output at all. -/
theorem render_skips_oob (body : List Position) (food : Position) (fs : Int)
    (h0 : 0 < fs) :
    renderLines (body.filter fun p =>
        decide (projectCoord fs p.x < i32AsUsize fs ∧ projectCoord fs p.y < i32AsUsize fs))
      food fs = renderLines body food fs := by
  unfold renderLines
  rw [renderGrid_filter]

/-- Witness for `render_skips_oob`: a body cell at `(5, 5)` projects outside
the 3×3 buffer and is skipped; dropping it leaves the output unchanged. -/
theorem render_skips_oob_witness :
    (0 : Int) < 3 ∧
    renderLines (([⟨5, 5⟩, ⟨0, 0⟩] : List Position).filter fun p =>
        decide (projectCoord 3 p.x < i32AsUsize 3 ∧ projectCoord 3 p.y < i32AsUsize 3))
      ⟨1, 1⟩ 3 = renderLines [⟨5, 5⟩, ⟨0, 0⟩] ⟨1, 1⟩ 3 :=
  ⟨by decide, render_skips_oob [⟨5, 5⟩, ⟨0, 0⟩] ⟨1, 1⟩ 3 (by decide)⟩

/-- Claim C9, counterexample: in the scenario (field size 3, snake body
`[(0,0)]`, food at `(1,1)`) the top rendered row is `"  *"` — blank, blank,
food glyph in the rightmost column — not the claimed `" *."` pattern, which
puts the food glyph in the middle column and uses a `'.'` character that the
renderer never emits. -/
theorem render_scenario_counterexample :
    (renderLines [⟨0, 0⟩] ⟨1, 1⟩ 3).headI = [' ', ' ', '*'] ∧
    ([' ', ' ', '*'] : List Char) ≠ [' ', '*', '.'] := by
  decide

/-- Claim C9, amended: for field size 3, snake body `[(0,0)]` and food at
`(1,1)`, the top row (the y = 1 row) is `"  *"` with the food glyph at the
x = 1 position (the rightmost column, x ∈ {-1,0,1} mapping to columns
0,1,2), the middle row has the snake glyph at the center column, and the
bottom row is blank. -/
theorem render_scenario :
    renderLines [⟨0, 0⟩] ⟨1, 1⟩ 3
      = [[' ', ' ', '*'], [' ', '~', ' '], [' ', ' ', ' ']] ∧
    renderChars [⟨0, 0⟩] ⟨1, 1⟩ 3
      = [' ', ' ', '*', '\n', ' ', '~', ' ', '\n', ' ', ' ', ' ', '\n'] := by
  decide

end SnakeGui
